import Mathlib

/-!
Verification of the deployment & snapshot orchestration core of the
n8n Kubernetes version manager.

The definitions below are a shallow embedding of the repository's source:
  * the namespace / release-name / port derivation of `deploy-version.sh`
    (custom-name branch with the `cksum`-based port hash, and the
    auto-generated `n8n-v{major}-{minor}-{patch}` branch);
  * the client-side `validateName` check of `DeployVersionCard.tsx`;
  * `build_helm_values` / `deep_merge` of `web-ui/api/versions.py`;
  * `parse_deployment_info` of `web-ui/api/versions.py`;
  * `list-snapshots.sh`, `create-named-snapshot.sh`,
    `wait-for-namespace-deletion.sh`, and the backend endpoints
    `remove_version` and `restore_snapshot`.
Machine integers are modelled as `Nat` with explicit `% 2 ^ 32` where the
shell / C semantics overflow; strings are byte sequences via their
character codes (the input domain is ASCII, where the two coincide).
-/

set_option maxRecDepth 10000

namespace N8nVM

/-- A semantic version triple `major.minor.patch`, the parsed form of the
`VERSION` argument of `deploy-version.sh` (`MAJOR`/`MINOR`/`PATCH` fields). -/
structure Version where
  major : Nat
  minor : Nat
  patch : Nat
deriving DecidableEq, Repr

/-- `VERSION_SLUG`: the version string with dots replaced by hyphens,
as computed by `deploy-version.sh`. -/
def versionSlug (v : Version) : String :=
  toString v.major ++ "-" ++ toString v.minor ++ "-" ++ toString v.patch

/-- `NAMESPACE="n8n-v${VERSION_SLUG}"` (auto-generated branch of
`deploy-version.sh`). -/
def autoNamespace (v : Version) : String :=
  "n8n-v" ++ versionSlug v

/-- `PORT=$((30000 + (MAJOR * 100) + MINOR))` (auto-generated branch of
`deploy-version.sh`, mirrored by `deploy_version` in `web-ui/api/versions.py`). -/
def autoPort (v : Version) : Nat :=
  30000 + v.major * 100 + v.minor

/-- The CRC polynomial used by POSIX `cksum` (the tool invoked by
`deploy-version.sh` to hash custom names). -/
def crc32Poly : Nat := 0x04C11DB7

/-- One byte step of the POSIX `cksum` CRC: xor the byte into the top octet
of the 32-bit register, then eight shift-and-conditionally-xor rounds. -/
def crcByte (crc b : Nat) : Nat :=
  let c0 := (Nat.xor crc (b <<< 24)) % 2 ^ 32
  (List.range 8).foldl
    (fun c _ =>
      if 2 ^ 31 ≤ c then (Nat.xor (c <<< 1) crc32Poly) % 2 ^ 32
      else (c <<< 1) % 2 ^ 32)
    c0

/-- Fuel-based helper for `lenBytesLE` (structural recursion so that the
definition reduces computationally; the fuel is always sufficient because a
positive number has at most as many base-256 digits as its own value). -/
def lenBytesLEAux : Nat → Nat → List Nat
  | 0, _ => []
  | _ + 1, 0 => []
  | fuel + 1, n + 1 => ((n + 1) % 256) :: lenBytesLEAux fuel ((n + 1) / 256)

/-- The length of the input, in binary, least significant octet first, using
the minimum number of octets — the trailing octets `cksum` appends. -/
def lenBytesLE (n : Nat) : List Nat :=
  lenBytesLEAux n n

/-- POSIX `cksum` of a byte sequence: CRC over the data, then over the
length octets, then complemented. -/
def cksumOf (bytes : List Nat) : Nat :=
  let c := bytes.foldl crcByte 0
  let c := (lenBytesLE bytes.length).foldl crcByte c
  Nat.xor c 0xFFFFFFFF

/-- The bytes of a string, via character codes (equal to the UTF-8 bytes on
the ASCII domain that validated names live in). -/
def stringBytes (s : String) : List Nat :=
  s.data.map Char.toNat

/-- `PORT=$(echo -n "$CUSTOM_NAME" | cksum | awk '{print 30000 + ($1 % 1000)}')`:
the hashed port for custom deployment names in `deploy-version.sh`. -/
def customPort (name : String) : Nat :=
  30000 + cksumOf (stringBytes name) % 1000

/-- A lowercase-alphanumeric character, the class `[a-z0-9]` used by
`validateName` in `DeployVersionCard.tsx`. -/
def isLowerAlnum (c : Char) : Bool :=
  ('a' ≤ c && c ≤ 'z') || ('0' ≤ c && c ≤ '9')

/-- The class `[a-z0-9-]` used by `validateName` in `DeployVersionCard.tsx`. -/
def isLowerAlnumDash (c : Char) : Bool :=
  isLowerAlnum c || c == '-'

/-- Character-list form of `validateName` from `DeployVersionCard.tsx`:
`/^[a-z0-9-]+$/.test(value)` is "nonempty and every character in
`[a-z0-9-]`", `/^[a-z0-9]/` tests the first character, `/[a-z0-9]$/` the
last. -/
def validNameChars (l : List Char) : Bool :=
  (!l.isEmpty && l.all isLowerAlnumDash) &&
  l.length ≤ 63 &&
  (match l.head? with
   | some c => isLowerAlnum c
   | none => false) &&
  (match l.getLast? with
   | some c => isLowerAlnum c
   | none => false)

/-- `validateName` from `DeployVersionCard.tsx`:
`/^[a-z0-9-]+$/.test(value) && value.length <= 63 && /^[a-z0-9]/.test(value)
 && /[a-z0-9]$/.test(value)`. -/
def validateName (value : String) : Bool :=
  validNameChars value.data

/-- The spec's object-name regular expression
`^[a-z0-9]([a-z0-9-]{0,61}[a-z0-9])?$` over a character list: one
lowercase-alphanumeric character, optionally followed by at most 61
characters of `[a-z0-9-]` and a final lowercase-alphanumeric character. -/
def specNameOkChars : List Char → Bool
  | [] => false
  | c :: cs =>
    isLowerAlnum c &&
    (cs.isEmpty ||
      (cs.length ≤ 62 &&
       (match cs.getLast? with
        | some d => isLowerAlnum d
        | none => false) &&
       cs.dropLast.all isLowerAlnumDash))

/-- The spec's object-name regular expression applied to a string. -/
def specNameOk (s : String) : Bool :=
  specNameOkChars s.data

/-- The identity triple derived at deploy time: namespace, release name and
host port (`NAMESPACE`, `RELEASE_NAME`, `PORT` in `deploy-version.sh`). -/
structure DeploymentIdentity where
  ns : String
  releaseName : String
  port : Nat
deriving DecidableEq, Repr

/-- The failure modes of identity resolution: the client-side name
validation error of `DeployVersionCard.tsx` (carrying the violated-rule
message), and the `ERROR: Namespace '...' already exists` check of
`deploy-version.sh`. -/
inductive ResolveError where
  | invalidName (rule : String) : ResolveError
  | nameCollision (ns : String) : ResolveError
deriving DecidableEq, Repr

/-- The violated-rule message reported by `validateName` in
`DeployVersionCard.tsx`. -/
def nameRuleMessage : String :=
  "Must be lowercase alphanumeric + hyphens, max 63 chars, start/end with alphanumeric"

/-- Identity resolution for a deploy request: validate the custom name
(`validateName`), derive namespace / release name / port per
`deploy-version.sh`, and reject an already-existing namespace.
`nsExists` abstracts `kubectl get namespace "$NAMESPACE"`. -/
def resolve (v : Version) (customName : Option String) (nsExists : String → Bool) :
    Except ResolveError DeploymentIdentity :=
  match customName with
  | some n =>
      if !validateName n then
        .error (.invalidName nameRuleMessage)
      else if nsExists n then
        .error (.nameCollision n)
      else
        .ok { ns := n, releaseName := n, port := customPort n }
  | none =>
      let ns := autoNamespace v
      if nsExists ns then
        .error (.nameCollision ns)
      else
        .ok { ns := ns, releaseName := ns, port := autoPort v }

theorem validNameChars_imp_spec (l : List Char) (h : validNameChars l = true) :
    specNameOkChars l = true := by
  match l with
  | [] => simp [validNameChars] at h
  | [c] =>
    rw [validNameChars, Bool.and_eq_true, Bool.and_eq_true, Bool.and_eq_true] at h
    have hhead : isLowerAlnum c = true := h.1.2
    show (isLowerAlnum c && _) = true
    rw [Bool.and_eq_true]
    exact ⟨hhead, by rw [Bool.or_eq_true]; exact Or.inl rfl⟩
  | c :: d :: ds =>
    rw [validNameChars, Bool.and_eq_true, Bool.and_eq_true, Bool.and_eq_true,
      Bool.and_eq_true] at h
    have hall : (c :: d :: ds).all isLowerAlnumDash = true := h.1.1.1.2
    have hlen : decide ((c :: d :: ds).length ≤ 63) = true := h.1.1.2
    have hhead : isLowerAlnum c = true := h.1.2
    obtain ⟨x, hx⟩ : ∃ x, (d :: ds).getLast? = some x :=
      Option.isSome_iff_exists.mp (List.getLast?_isSome.mpr (by simp))
    have hccons : (c :: d :: ds).getLast? = some x := by
      rw [List.getLast?_cons_cons, hx]
    have hlast : isLowerAlnum x = true := by
      have h2 := h.2
      rw [hccons] at h2
      exact h2
    have hlen2 : (d :: ds).length ≤ 62 := by
      have := of_decide_eq_true hlen
      simp only [List.length_cons] at this ⊢
      omega
    show (isLowerAlnum c && _) = true
    rw [Bool.and_eq_true]
    refine ⟨hhead, ?_⟩
    rw [Bool.or_eq_true]
    right
    rw [Bool.and_eq_true, Bool.and_eq_true]
    refine ⟨⟨by simpa using hlen2, ?_⟩, ?_⟩
    · rw [hx]
      exact hlast
    · have hsub : (d :: ds).dropLast ⊆ c :: d :: ds :=
        fun y hy => List.mem_cons_of_mem c (List.dropLast_subset _ hy)
      rw [List.all_eq_true] at hall ⊢
      exact fun y hy => hall y (hsub hy)

theorem validateName_imp_spec (s : String) (h : validateName s = true) :
    specNameOk s = true :=
  validNameChars_imp_spec s.data h


/-- C1: for every version triple deployed without a custom name (and no
namespace collision), the derived namespace and release name equal
`n8n-v{major}-{minor}-{patch}` and the derived port equals
`30000 + major*100 + minor`. -/
theorem resolve_auto_identity (v : Version) (nsExists : String → Bool)
    (h : nsExists (autoNamespace v) = false) :
    resolve v none nsExists =
      .ok { ns := "n8n-v" ++ toString v.major ++ "-" ++ toString v.minor
                    ++ "-" ++ toString v.patch,
            releaseName := "n8n-v" ++ toString v.major ++ "-" ++ toString v.minor
                    ++ "-" ++ toString v.patch,
            port := 30000 + v.major * 100 + v.minor } := by
  simp only [autoNamespace, versionSlug, String.append_assoc] at h
  simp only [resolve, autoNamespace, versionSlug, autoPort, String.append_assoc, h,
    Bool.false_eq_true, if_false]

/-- Witness for C1: version `1.85.0` yields namespace `n8n-v1-85-0` and
port `30185`. -/
theorem resolve_auto_identity_witness :
    resolve ⟨1, 85, 0⟩ none (fun _ => false) =
      .ok { ns := "n8n-v1-85-0", releaseName := "n8n-v1-85-0", port := 30185 } :=
  (resolve_auto_identity ⟨1, 85, 0⟩ (fun _ => false) rfl).trans (by rfl)

/-- C2: for every custom deployment name, the derived port equals
`30000 + cksum(name) % 1000`, always lies in `[30000, 30999]`, and
re-deriving the port from the same name yields the same value. -/
theorem customPort_spec (name : String) :
    customPort name = 30000 + cksumOf (stringBytes name) % 1000 ∧
    30000 ≤ customPort name ∧ customPort name ≤ 30999 ∧
    ∀ again : String, again = name → customPort again = customPort name := by
  have hm : cksumOf (stringBytes name) % 1000 < 1000 :=
    Nat.mod_lt _ (by norm_num)
  refine ⟨rfl, ?_, ?_, fun again hagain => by rw [hagain]⟩ <;>
    (unfold customPort; omega)

/-- Witness for C2 at the concrete name `acme`. -/
theorem customPort_spec_witness :
    customPort "acme" = 30000 + cksumOf (stringBytes "acme") % 1000 ∧
    30000 ≤ customPort "acme" ∧ customPort "acme" ≤ 30999 ∧
    customPort "acme" = customPort "acme" := by
  have h := customPort_spec "acme"
  exact ⟨h.1, h.2.1, h.2.2.1, h.2.2.2 "acme" rfl⟩

/-- C5: for every custom name violating the object-name pattern
`^[a-z0-9]([a-z0-9-]{0,61}[a-z0-9])?$`, resolution fails with the structured
invalid-name error naming the violated rule, and the namespace-collision
existence check is never consulted (the outcome is the same for every
`nsExists` oracle). -/
theorem resolve_invalid_name (v : Version) (n : String)
    (nsExists nsExists' : String → Bool) (h : specNameOk n = false) :
    resolve v (some n) nsExists = .error (.invalidName nameRuleMessage) ∧
    resolve v (some n) nsExists = resolve v (some n) nsExists' := by
  have hv : validateName n = false := by
    cases hval : validateName n with
    | false => rfl
    | true =>
        exact absurd (validateName_imp_spec n hval) (by simp [specNameOk] at h ⊢; exact h)
  constructor <;> simp [resolve, hv]

/-- Witness for C5: `Test-Custom` violates the pattern and is rejected even
when every namespace-existence query would answer `true`. -/
theorem resolve_invalid_name_witness :
    resolve ⟨1, 85, 0⟩ (some "Test-Custom") (fun _ => true) =
      .error (.invalidName nameRuleMessage) ∧
    resolve ⟨1, 85, 0⟩ (some "Test-Custom") (fun _ => true) =
      resolve ⟨1, 85, 0⟩ (some "Test-Custom") (fun _ => false) :=
  resolve_invalid_name ⟨1, 85, 0⟩ "Test-Custom" (fun _ => true) (fun _ => false)
    (by decide)

/-- A recursive configuration value: the shallow embedding of the Python /
YAML values handled by `build_helm_values` and `deep_merge` in
`web-ui/api/versions.py`. Mappings are insertion-ordered key-value lists,
as Python dicts are. -/
inductive JVal where
  | str (s : String) : JVal
  | num (n : Nat) : JVal
  | nullV : JVal
  | arr (items : List JVal) : JVal
  | map (entries : List (String × JVal)) : JVal

/-- `isinstance(value, dict)`. -/
def JVal.isMapB : JVal → Bool
  | .map _ => true
  | _ => false

/-- Python dict lookup `m[k]` / membership `k in m` on the assoc-list model
(first occurrence; dicts built by the code below never repeat a key). -/
def lookupKey : List (String × JVal) → String → Option JVal
  | [], _ => none
  | (k', v') :: rest, k => if k' = k then some v' else lookupKey rest k

/-- Python dict update `m[k] = v`: replace the first binding of `k` in
place, or append a new binding at the end. -/
def setKey : List (String × JVal) → String → JVal → List (String × JVal)
  | [], k, v => [(k, v)]
  | (k', v') :: rest, k, v =>
      if k' = k then (k, v) :: rest else (k', v') :: setKey rest k v

/-- `result[key]` when it is a dict (`key in result and
isinstance(result[key], dict)` in `deep_merge`). -/
def getMap : Option JVal → Option (List (String × JVal))
  | some (.map m) => some m
  | _ => none

/-- `deep_merge` from `web-ui/api/versions.py`: start from a copy of `base`
and fold the `override` entries over it; when both sides hold a dict at the
same key, recurse, otherwise the override value replaces the base value. -/
def deep_merge : List (String × JVal) → List (String × JVal) → List (String × JVal)
  | base, [] => base
  | base, (k, JVal.map om) :: rest =>
      (match getMap (lookupKey base k) with
       | some bm => deep_merge (setKey base k (.map (deep_merge bm om))) rest
       | none => deep_merge (setKey base k (.map om)) rest)
  | base, (k, JVal.str s) :: rest => deep_merge (setKey base k (.str s)) rest
  | base, (k, JVal.num n) :: rest => deep_merge (setKey base k (.num n)) rest
  | base, (k, JVal.nullV) :: rest => deep_merge (setKey base k .nullV) rest
  | base, (k, JVal.arr xs) :: rest => deep_merge (setKey base k (.arr xs)) rest
termination_by _ l => sizeOf l
decreasing_by
  all_goals simp
  all_goals omega

/-- The per-entry override value computed by one step of `deep_merge`. -/
def newValOf (base : List (String × JVal)) (k : String) : JVal → JVal
  | .map om =>
      (match getMap (lookupKey base k) with
       | some bm => .map (deep_merge bm om)
       | none => .map om)
  | v => v

theorem deep_merge_nil (base : List (String × JVal)) : deep_merge base [] = base := by
  simp [deep_merge]

theorem deep_merge_cons (base : List (String × JVal)) (k : String) (v : JVal)
    (rest : List (String × JVal)) :
    deep_merge base ((k, v) :: rest) =
      deep_merge (setKey base k (newValOf base k v)) rest := by
  cases v with
  | map om =>
      rw [deep_merge, newValOf]
      cases h : getMap (lookupKey base k) <;> simp [h]
  | str s =>
      rw [deep_merge, newValOf]
      all_goals simp
  | num n =>
      rw [deep_merge, newValOf]
      all_goals simp
  | nullV =>
      rw [deep_merge, newValOf]
      all_goals simp
  | arr xs =>
      rw [deep_merge, newValOf]
      all_goals simp

/-- `ResourceConfig` from `web-ui/api/versions.py` (pydantic model with
optional `cpu` and `memory` limit strings). -/
structure ResourceConfig where
  cpu : Option String
  memory : Option String

/-- The outcome of the `if custom.rawYaml:` guard plus `yaml.safe_load` in
`build_helm_values`: the raw text is absent or empty (falsy), fails to
parse (`yaml.YAMLError`), or parses to a value. -/
inductive RawParse where
  | absent : RawParse
  | parseError : RawParse
  | parsed (v : JVal) : RawParse

/-- `CustomValues` from `web-ui/api/versions.py`, with the raw YAML field
carried as its parse outcome. -/
structure CustomValues where
  envVars : Option (List (String × String))
  resources : Option ResourceConfig
  workerReplicas : Option Nat
  rawYaml : RawParse

/-- Python truthiness of an optional string: `None` and `""` are falsy. -/
def truthyStr : Option String → Bool
  | some s => !s.isEmpty
  | none => false

/-- The dict comprehension `{ev.key: ev.value for ev in custom.envVars}`:
later occurrences of a key overwrite earlier ones, keeping the first
position (Python dict semantics). -/
def envDict (l : List (String × String)) : List (String × JVal) :=
  l.foldl (fun acc kv => setKey acc kv.1 (.str kv.2)) []

/-- The `limits` dict built by `build_helm_values`: `cpu` then `memory`,
each added only when truthy. -/
def limitsOf (rc : ResourceConfig) : List (String × JVal) :=
  (match rc.cpu with
   | some c => if !c.isEmpty then [("cpu", JVal.str c)] else []
   | none => []) ++
  (match rc.memory with
   | some m => if !m.isEmpty then [("memory", JVal.str m)] else []
   | none => [])

/-- `build_helm_values` from `web-ui/api/versions.py`: assemble the
structured fields (`extraEnv`, `resources.main.limits`, `replicas.workers`)
into one mapping, then, when the raw YAML text parsed to a dict, deep-merge
that dict over it; a parse error or a non-dict parse contributes nothing.
The function is total: no input makes it fail. -/
def build_helm_values (custom : CustomValues) : List (String × JVal) :=
  let values : List (String × JVal) := []
  let values :=
    match custom.envVars with
    | some evs => if !evs.isEmpty then values ++ [("extraEnv", JVal.map (envDict evs))] else values
    | none => values
  let values :=
    match custom.resources with
    | some rc =>
        let resources : List (String × JVal) :=
          if truthyStr rc.cpu || truthyStr rc.memory then
            [("main", JVal.map [("limits", JVal.map (limitsOf rc))])]
          else []
        if !resources.isEmpty then values ++ [("resources", JVal.map resources)] else values
    | none => values
  let values :=
    match custom.workerReplicas with
    | some n => values ++ [("replicas", JVal.map [("workers", JVal.num n)])]
    | none => values
  match custom.rawYaml with
  | .parsed (.map om) => deep_merge values om
  | _ => values

/-- Path lookup in a configuration value: follow a sequence of mapping keys. -/
def lookupPath : JVal → List String → Option JVal
  | v, [] => some v
  | .map m, k :: rest =>
      (match lookupKey m k with
       | some v => lookupPath v rest
       | none => none)
  | _, _ :: _ => none

/-- How many bindings of `k` a mapping holds. -/
def keyCount (m : List (String × JVal)) (k : String) : Nat :=
  (m.filter (fun kv => kv.1 = k)).length

/-- The keys along `path` are unambiguous in the mapping (at most one
binding at each level) — automatically true of any dict produced by
`yaml.safe_load`, which keeps one binding per key. -/
def pathUnique : List (String × JVal) → List String → Bool
  | _, [] => true
  | m, k :: rest =>
      keyCount m k ≤ 1 &&
      (match lookupKey m k with
       | some (.map m') => pathUnique m' rest
       | _ => true)

theorem lookupKey_setKey_same (m : List (String × JVal)) (k : String) (v : JVal) :
    lookupKey (setKey m k v) k = some v := by
  induction m with
  | nil => simp [setKey, lookupKey]
  | cons hd rest ih =>
      obtain ⟨k', v'⟩ := hd
      by_cases hk : k' = k
      · simp [setKey, lookupKey, hk]
      · simp [setKey, lookupKey, hk, ih]

theorem lookupKey_setKey_ne (m : List (String × JVal)) (k k' : String) (v : JVal)
    (h : k' ≠ k) : lookupKey (setKey m k' v) k = lookupKey m k := by
  induction m with
  | nil => simp [setKey, lookupKey, h]
  | cons hd rest ih =>
      obtain ⟨k'', v''⟩ := hd
      by_cases hk : k'' = k'
      · subst hk
        simp [setKey, lookupKey, h]
      · simp [setKey, lookupKey, hk, ih]

theorem lookupKey_of_keyCount_zero (m : List (String × JVal)) (k : String)
    (h : keyCount m k = 0) : lookupKey m k = none := by
  induction m with
  | nil => rfl
  | cons hd rest ih =>
      obtain ⟨k', v'⟩ := hd
      rw [keyCount, List.filter_cons] at h
      by_cases hk : k' = k
      · simp [hk] at h
      · rw [if_neg (by simpa using hk)] at h
        rw [lookupKey, if_neg hk]
        exact ih h

theorem lookupKey_deep_merge_absent (base ov : List (String × JVal)) (k : String)
    (h : lookupKey ov k = none) :
    lookupKey (deep_merge base ov) k = lookupKey base k := by
  induction ov generalizing base with
  | nil => rw [deep_merge_nil]
  | cons hd rest ih =>
      obtain ⟨k', v'⟩ := hd
      have hk : k' ≠ k := by
        intro heq
        simp [lookupKey, heq] at h
      have hrest : lookupKey rest k = none := by
        simpa [lookupKey, hk] using h
      rw [deep_merge_cons, ih _ hrest, lookupKey_setKey_ne _ _ _ _ hk]

theorem newValOf_ext (b1 b2 : List (String × JVal)) (k : String) (v : JVal)
    (h : lookupKey b1 k = lookupKey b2 k) : newValOf b1 k v = newValOf b2 k v := by
  cases v <;> simp [newValOf, h]

theorem lookupKey_deep_merge (base ov : List (String × JVal)) (k : String) (w : JVal)
    (h : lookupKey ov k = some w) (hu : keyCount ov k ≤ 1) :
    lookupKey (deep_merge base ov) k = some (newValOf base k w) := by
  induction ov generalizing base with
  | nil => simp [lookupKey] at h
  | cons hd rest ih =>
      obtain ⟨k', v'⟩ := hd
      rw [deep_merge_cons]
      by_cases hk : k' = k
      · subst hk
        rw [lookupKey, if_pos rfl] at h
        injection h with h
        subst h
        have hzero : keyCount rest k' = 0 := by
          rw [keyCount]
          rw [keyCount, List.filter_cons] at hu
          rw [if_pos (by simp)] at hu
          simp only [List.length_cons] at hu
          omega
        rw [lookupKey_deep_merge_absent _ _ _ (lookupKey_of_keyCount_zero _ _ hzero),
          lookupKey_setKey_same]
      · rw [lookupKey, if_neg hk] at h
        have hu' : keyCount rest k ≤ 1 := by
          rw [keyCount, List.filter_cons] at hu
          rw [if_neg (by simpa using hk)] at hu
          exact hu
        rw [ih _ h hu']
        exact congrArg some
          (newValOf_ext _ _ _ _ (lookupKey_setKey_ne _ _ _ _ hk))

theorem lookupPath_deep_merge (base ov : List (String × JVal)) (path : List String)
    (v : JVal) (hfind : lookupPath (.map ov) path = some v)
    (hleaf : v.isMapB = false) (hu : pathUnique ov path = true) :
    lookupPath (.map (deep_merge base ov)) path = some v := by
  induction path generalizing base ov with
  | nil =>
      rw [lookupPath] at hfind
      injection hfind with hfind
      subst hfind
      simp [JVal.isMapB] at hleaf
  | cons k rest ih =>
      rw [pathUnique, Bool.and_eq_true] at hu
      obtain ⟨hu1, hu2⟩ := hu
      have hu1' : keyCount ov k ≤ 1 := of_decide_eq_true hu1
      rw [lookupPath] at hfind
      cases hw : lookupKey ov k with
      | none => rw [hw] at hfind; exact absurd hfind (by simp)
      | some w =>
          rw [hw] at hfind
          rw [lookupPath, lookupKey_deep_merge base ov k w hw hu1']
          cases w with
          | map om =>
              rw [newValOf]
              cases hb : getMap (lookupKey base k) with
              | some bm =>
                  rw [hw] at hu2
                  exact ih bm om hfind hu2
              | none => exact hfind
          | str s => exact hfind
          | num n => exact hfind
          | nullV => exact hfind
          | arr xs => exact hfind

/-- C3: when the raw override document parses to a mapping, `compose`
(`build_helm_values`) merges it over the structured-field-derived mapping
by recursive last-writer-wins, so every leaf value of the raw override is
found unchanged in the effective configuration. -/
theorem compose_raw_override_wins (custom : CustomValues)
    (om : List (String × JVal)) (path : List String) (v : JVal)
    (hraw : custom.rawYaml = .parsed (.map om))
    (hfind : lookupPath (.map om) path = some v)
    (hleaf : v.isMapB = false) (hu : pathUnique om path = true) :
    lookupPath (.map (build_helm_values custom)) path = some v := by
  obtain ⟨ev, rc, wr, ry⟩ := custom
  have hry : ry = .parsed (.map om) := hraw
  subst hry
  have hsplit :
      build_helm_values ⟨ev, rc, wr, .parsed (.map om)⟩ =
        deep_merge (build_helm_values ⟨ev, rc, wr, .absent⟩) om := by
    simp [build_helm_values]
  rw [hsplit]
  exact lookupPath_deep_merge _ om path v hfind hleaf hu

/-- Witness for C3: structured field `resources.cpu = "500m"` with raw
override `{resources: {cpu: "250m"}}` yields effective
`resources.cpu == "250m"`. -/
theorem compose_raw_override_wins_witness :
    lookupPath
      (.map (build_helm_values
        ⟨none, some ⟨some "500m", none⟩, none,
         .parsed (.map [("resources", .map [("cpu", .str "250m")])])⟩))
      ["resources", "cpu"] = some (.str "250m") :=
  compose_raw_override_wins
    ⟨none, some ⟨some "500m", none⟩, none,
     .parsed (.map [("resources", .map [("cpu", .str "250m")])])⟩
    [("resources", .map [("cpu", .str "250m")])]
    ["resources", "cpu"] (.str "250m") rfl (by rfl) (by rfl) (by rfl)

/-- C4: `compose` never fails on a bad raw override — a raw override text
that fails to parse, or parses to a non-mapping, contributes nothing, and
the configuration from the structured fields alone is returned
(`build_helm_values` is a total function: no input produces an error). -/
theorem compose_bad_raw_degrades (custom : CustomValues)
    (h : custom.rawYaml = .parseError ∨
         ∃ w, custom.rawYaml = .parsed w ∧ w.isMapB = false) :
    build_helm_values custom = build_helm_values { custom with rawYaml := .absent } := by
  obtain ⟨ev, rc, wr, ry⟩ := custom
  rcases h with h | ⟨w, h, hw⟩
  · have hry : ry = .parseError := h
    subst hry
    simp [build_helm_values]
  · have hry : ry = .parsed w := h
    subst hry
    cases w with
    | map om => simp [JVal.isMapB] at hw
    | str s => simp [build_helm_values]
    | num n => simp [build_helm_values]
    | nullV => simp [build_helm_values]
    | arr xs => simp [build_helm_values]

/-- Witness for C4: a parse error degrades to the structured-field-only
configuration. -/
theorem compose_bad_raw_degrades_witness :
    build_helm_values
      ⟨some [("N8N_LOG_LEVEL", "debug")], some ⟨some "500m", none⟩, some 2,
       .parseError⟩ =
    build_helm_values
      ⟨some [("N8N_LOG_LEVEL", "debug")], some ⟨some "500m", none⟩, some 2,
       .absent⟩ :=
  compose_bad_raw_degrades
    ⟨some [("N8N_LOG_LEVEL", "debug")], some ⟨some "500m", none⟩, some 2,
     .parseError⟩
    (Or.inl rfl)

/-- Consume a literal character sequence at the head of the input, as the
fixed `n8n-v` part of `re.search(r'n8n-v(\d+)-(\d+)-(\d+)', ...)` does. -/
def dropLit : List Char → List Char → Option (List Char)
  | [], rest => some rest
  | c :: cs, d :: rest => if c = d then dropLit cs rest else none
  | _ :: _, [] => none

/-- Numeric value of a digit run (a regex `\d+` capture group). -/
def digitsVal (ds : List Char) : Nat :=
  ds.foldl (fun a c => a * 10 + (c.toNat - 48)) 0

/-- Match `n8n-v(\d+)-(\d+)-(\d+)` anchored at the current position.
Greedy digit runs followed by a literal `-` need no backtracking, so
maximal-munch spans are exactly the regex semantics. -/
def matchVersionAt (l : List Char) : Option (Nat × Nat × Nat) :=
  match dropLit ['n', '8', 'n', '-', 'v'] l with
  | none => none
  | some r1 =>
      let p1 := r1.span Char.isDigit
      if p1.1.isEmpty then none else
      match p1.2 with
      | '-' :: r3 =>
          let p2 := r3.span Char.isDigit
          if p2.1.isEmpty then none else
          match p2.2 with
          | '-' :: r5 =>
              let p3 := r5.span Char.isDigit
              if p3.1.isEmpty then none
              else some (digitsVal p1.1, digitsVal p2.1, digitsVal p3.1)
          | _ => none
      | _ => none

/-- `re.search`: try the pattern at every start position, leftmost match
wins. -/
def searchVersion : List Char → Option (Nat × Nat × Nat)
  | [] => none
  | c :: cs =>
      match matchVersionAt (c :: cs) with
      | some t => some t
      | none => searchVersion cs

/-- Python `str.strip()`: drop whitespace from both ends (structural form
over the character list). -/
def pyStrip (s : String) : String :=
  String.mk
    (((s.data.dropWhile Char.isWhitespace).reverse.dropWhile
        Char.isWhitespace).reverse)

/-- `parse_deployment_info` from `web-ui/api/versions.py`: structural
parse of the namespace name against `n8n-v(\d+)-(\d+)-(\d+)` first; on
failure, read the `version` namespace label (`labelLookup` is the
`kubectl ... jsonpath={.metadata.labels.version}` stdout, `none` when the
subprocess raised); `result.stdout.strip() or "unknown"` maps an empty or
missing label to the explicit opaque marker `unknown`. -/
def parse_deployment_info (ns : String) (labelLookup : Option String) :
    String × String :=
  match searchVersion ns.data with
  | some (a, b, c) =>
      (ns, toString a ++ "." ++ toString b ++ "." ++ toString c)
  | none =>
      match labelLookup with
      | some out =>
          (ns, if (pyStrip out).data.isEmpty then "unknown" else pyStrip out)
      | none => (ns, "unknown")

/-- C7: `versionOf` first attempts structural parsing of the namespace
name; on failure it consults the namespace's version label; when neither
yields a version it returns the explicit opaque marker `unknown` rather
than fabricating a version value. -/
theorem parse_deployment_info_spec (ns : String) (labelLookup : Option String) :
    (∀ a b c, searchVersion ns.data = some (a, b, c) →
        parse_deployment_info ns labelLookup =
          (ns, toString a ++ "." ++ toString b ++ "." ++ toString c)) ∧
    (∀ out, searchVersion ns.data = none → labelLookup = some out →
        (pyStrip out).data.isEmpty = false →
        parse_deployment_info ns labelLookup = (ns, pyStrip out)) ∧
    (searchVersion ns.data = none →
        (labelLookup = none ∨
          ∃ out, labelLookup = some out ∧ (pyStrip out).data.isEmpty = true) →
        parse_deployment_info ns labelLookup = (ns, "unknown")) := by
  refine ⟨?_, ?_, ?_⟩
  · intro a b c h
    unfold parse_deployment_info
    rw [h]
  · intro out hs hl hne
    unfold parse_deployment_info
    rw [hs, hl]
    simp [hne]
  · intro hs hl
    unfold parse_deployment_info
    rcases hl with hl | ⟨out, hl, hempty⟩
    · rw [hs, hl]
    · rw [hs, hl]
      simp [hempty]

/-- Witness for C7: the three branches at concrete inputs — an
auto-generated namespace parses structurally, a custom namespace with a
version label reports the label, and a custom namespace with a failed
label lookup reports `unknown`. -/
theorem parse_deployment_info_spec_witness :
    parse_deployment_info "n8n-v1-85-0" none = ("n8n-v1-85-0", "1.85.0") ∧
    parse_deployment_info "acme" (some "1.85.0") = ("acme", "1.85.0") ∧
    parse_deployment_info "acme" none = ("acme", "unknown") := by
  refine ⟨?_, ?_, ?_⟩
  · have h := (parse_deployment_info_spec "n8n-v1-85-0" none).1 1 85 0 (by rfl)
    simpa using h
  · have h := (parse_deployment_info_spec "acme" (some "1.85.0")).2.1 "1.85.0"
      (by rfl) rfl (by rfl)
    simpa using h
  · exact (parse_deployment_info_spec "acme" none).2.2 (by rfl) (Or.inl rfl)

/-- The snapshot backing store as `list-snapshots.sh` sees it: the file
names in `/backups/snapshots/` (named snapshots and their `.meta`
sidecars) and in `/backups/` (timestamped automatic snapshots). No flags
or metadata are consulted for partitioning — only the names. -/
structure SnapshotStore where
  snapshotsDir : List String
  backupsDir : List String

/-- A grep `...$` anchor: the last characters of `s` are exactly `suf`
(structural form so that it evaluates). -/
def endsWithB (s suf : String) : Bool :=
  s.data.drop (s.data.length - suf.data.length) == suf.data

/-- A grep `^...` anchor: the first characters of `s` are exactly `pre`. -/
def startsWithB (s pre : String) : Bool :=
  s.data.take pre.data.length == pre.data

/-- Named listing: `list_files "/backups/snapshots/" | grep '\.sql$' |
grep -v '\.meta$'`. -/
def listNamed (store : SnapshotStore) : List String :=
  store.snapshotsDir.filter (fun f => endsWithB f ".sql" && !(endsWithB f ".meta"))

/-- Automatic listing: `list_files "/backups/" | grep '^n8n-.*\.sql$' |
grep -v '\.meta$'`. -/
def listAuto (store : SnapshotStore) : List String :=
  store.backupsDir.filter
    (fun f => startsWithB f "n8n-" && endsWithB f ".sql" && !(endsWithB f ".meta"))

/-- The `all` mode of `list-snapshots.sh`: the named section followed by
the timestamped section. -/
def listAll (store : SnapshotStore) : List String × List String :=
  (listNamed store, listAuto store)

/-- C8: on a store holding exactly `acme.sql`, `acme.sql.meta`,
`n8n-20260119-120000-manual.sql` and `n8n-20260119-130000-pre-v1.85.0.sql`,
listing everything returns exactly one named snapshot and two automatic
ones; and in general no `.meta` sidecar ever appears in either section —
the partition is computed from the file names alone (the store model holds
nothing else a listing could consult). -/
theorem list_snapshots_partition :
    listAll { snapshotsDir := ["acme.sql", "acme.sql.meta"],
              backupsDir := ["n8n-20260119-120000-manual.sql",
                             "n8n-20260119-130000-pre-v1.85.0.sql"] } =
      (["acme.sql"],
       ["n8n-20260119-120000-manual.sql",
        "n8n-20260119-130000-pre-v1.85.0.sql"]) ∧
    (∀ store : SnapshotStore, ∀ f : String, endsWithB f ".meta" = true →
        f ∉ listNamed store ∧ f ∉ listAuto store) := by
  constructor
  · decide
  · intro store f hmeta
    constructor
    · intro hmem
      have := (List.mem_filter.mp hmem).2
      rw [hmeta] at this
      simp at this
    · intro hmem
      have := (List.mem_filter.mp hmem).2
      rw [hmeta] at this
      simp at this

/-- Witness for C8's general clause: the sidecar `acme.sql.meta` is
excluded from both sections of the concrete store. -/
theorem list_snapshots_partition_witness :
    "acme.sql.meta" ∉
      listNamed { snapshotsDir := ["acme.sql", "acme.sql.meta"],
                  backupsDir := [] } ∧
    "acme.sql.meta" ∉
      listAuto { snapshotsDir := ["acme.sql", "acme.sql.meta"],
                 backupsDir := [] } :=
  list_snapshots_partition.2
    { snapshotsDir := ["acme.sql", "acme.sql.meta"], backupsDir := [] }
    "acme.sql.meta" (by decide)

/-- The label character class of `create-named-snapshot.sh`:
`^[a-zA-Z0-9_-]+$`. -/
def isLabelChar (c : Char) : Bool :=
  ('a' ≤ c && c ≤ 'z') || ('A' ≤ c && c ≤ 'Z') || ('0' ≤ c && c ≤ '9') ||
  c == '_' || c == '-'

/-- `^[a-zA-Z0-9_-]+$` from `create-named-snapshot.sh`. -/
def labelValid (name : String) : Bool :=
  !name.data.isEmpty && name.data.all isLabelChar

/-- The failure exits of `create-named-snapshot.sh`: missing name
(usage), invalid label, or a nonexistent source namespace. The script has
no exit for a duplicate label. -/
inductive CreateNamedError where
  | usageError : CreateNamedError
  | invalidLabel : CreateNamedError
  | sourceNotFound (ns : String) : CreateNamedError
deriving DecidableEq, Repr

/-- The dump job `create-named-snapshot.sh` creates: `pg_dump` from
`dbHost` into `/backups/snapshots/{outputFile}` (shell redirection `>`,
which truncates and overwrites an existing file), plus the `.meta`
sidecar. -/
structure SnapshotJob where
  outputFile : String
  metaFile : String
  dbHost : String
deriving DecidableEq, Repr

set_option linter.unusedVariables false in
/-- `create-named-snapshot.sh`: validate the label pattern, resolve the
source (shared database or an existing namespace), then create the dump
job. `catalog` is the list of files already in `/backups/snapshots/`; the
script can see it through the mounted volume but never reads it — no
duplicate-label check of any kind appears between validation and the
dump. -/
def create_named_snapshot (name source : String) (nsExists : String → Bool)
    (catalog : List String) : Except CreateNamedError SnapshotJob :=
  if name.data.isEmpty then .error .usageError
  else if !(labelValid name) then .error .invalidLabel
  else if source = "shared" then
    .ok { outputFile := name ++ ".sql", metaFile := name ++ ".sql.meta",
          dbHost := "postgres.n8n-system.svc.cluster.local" }
  else if nsExists source then
    .ok { outputFile := name ++ ".sql", metaFile := name ++ ".sql.meta",
          dbHost := "postgres-" ++ source ++ "." ++ source ++ ".svc.cluster.local" }
  else .error (.sourceNotFound source)

/-- Counterexample to C6: with `acme.sql` already in the catalog,
creating a named snapshot labelled `acme` from the shared database does
not fail — the dump job is created and its output file is exactly the
existing `acme.sql`, which the dump's `>` redirection overwrites. -/
theorem create_named_duplicate_not_rejected :
    create_named_snapshot "acme" "shared" (fun _ => false) ["acme.sql"] =
      .ok { outputFile := "acme.sql", metaFile := "acme.sql.meta",
            dbHost := "postgres.n8n-system.svc.cluster.local" } := rfl

/-- C6 (amended): `createNamed` validates only the label pattern (and, for
a namespace source, its existence); it performs no duplicate-label check —
the result is the same for every catalog, and for a valid label the dump
job targeting `{label}.sql` is created even when that file already exists. -/
theorem create_named_no_duplicate_check (name source : String)
    (nsExists : String → Bool) (catalog catalog' : List String)
    (hvalid : labelValid name = true) :
    create_named_snapshot name source nsExists catalog =
      create_named_snapshot name source nsExists catalog' ∧
    (source = "shared" →
      create_named_snapshot name source nsExists catalog =
        .ok { outputFile := name ++ ".sql", metaFile := name ++ ".sql.meta",
              dbHost := "postgres.n8n-system.svc.cluster.local" }) := by
  constructor
  · rfl
  · intro hsrc
    have hne : name.data.isEmpty = false := by
      rw [labelValid, Bool.and_eq_true] at hvalid
      simpa using hvalid.1
    rw [create_named_snapshot, if_neg (by simp [hne]), if_neg (by simp [hvalid]),
      if_pos hsrc]

/-- Witness for the amended C6: the duplicate label `acme` is accepted
against a catalog that already contains `acme.sql`, identically to an
empty catalog. -/
theorem create_named_no_duplicate_check_witness :
    create_named_snapshot "acme" "shared" (fun _ => false) ["acme.sql"] =
      create_named_snapshot "acme" "shared" (fun _ => false) [] ∧
    create_named_snapshot "acme" "shared" (fun _ => false) ["acme.sql"] =
      .ok { outputFile := "acme.sql", metaFile := "acme.sql.meta",
            dbHost := "postgres.n8n-system.svc.cluster.local" } := by
  have h := create_named_no_duplicate_check "acme" "shared" (fun _ => false)
    ["acme.sql"] [] (by decide)
  exact ⟨h.1, h.2 rfl⟩

/-- The outcome of `wait-for-namespace-deletion.sh`: the namespace was
already absent at the initial check (the script prints
`does not exist (already deleted)` and exits before the polling loop),
the namespace disappeared at in-loop poll number `n`, or the 120-second
bound was exhausted. -/
inductive WaitResult where
  | alreadyAbsent : WaitResult
  | deleted (poll : Nat) : WaitResult
  | timedOut : WaitResult
deriving DecidableEq, Repr

/-- The polling loop of `wait-for-namespace-deletion.sh`: up to 60
iterations (`MAX_WAIT=120`, step 2s), checking existence at the start of
each. `existsAt i` abstracts the `kubectl get namespace` probe at check
number `i` (check 0 is the pre-loop check). -/
def waitIter (existsAt : Nat → Bool) : Nat → Nat → WaitResult
  | 0, _ => .timedOut
  | fuel + 1, i =>
      if !existsAt i then .deleted i
      else waitIter existsAt fuel (i + 1)

/-- `wait-for-namespace-deletion.sh`: initial existence check (early exit
0 when the namespace is already gone, without entering the loop), then the
bounded polling loop. -/
def wait_for_namespace_deletion (existsAt : Nat → Bool) : WaitResult :=
  if !existsAt 0 then .alreadyAbsent
  else waitIter existsAt 60 1

/-- The failures of `remove(namespace)`. -/
inductive RemoveError where
  | notFound : RemoveError
  | stillTerminating : RemoveError
deriving DecidableEq, Repr

/-- Modelled from the spec: `remove-version.sh` itself is not part of the
repository snapshot (only its caller `remove_version` in
`web-ui/api/versions.py` and `scripts/wait-for-namespace-deletion.sh`
are). Per §4.3, `remove(namespace) -> Success | Fails(NotFound)` deletes
the namespace and waits, bounded, for full removal. `nsExisted` is
whether the namespace exists when the removal starts; the returned
Boolean records whether the wait-for-deletion step was invoked at all. -/
def remove_version (nsExisted : Bool) (existsAt : Nat → Bool) :
    Except RemoveError Unit × Bool :=
  if !nsExisted then (.error .notFound, false)
  else
    match wait_for_namespace_deletion existsAt with
    | .timedOut => (.error .stillTerminating, true)
    | _ => (.ok (), true)

/-- C9: removing a namespace that never existed fails with not-found and
never invokes the wait-for-deletion polling loop; independently, the
in-repository wait script exits on its pre-loop check for such a
namespace without a single loop poll. -/
theorem remove_nonexistent_no_wait (existsAt : Nat → Bool)
    (h : ∀ t, existsAt t = false) :
    remove_version false existsAt = (.error .notFound, false) ∧
    wait_for_namespace_deletion existsAt = .alreadyAbsent := by
  constructor
  · rfl
  · rw [wait_for_namespace_deletion, if_pos (by rw [h 0]; rfl)]

/-- Witness for C9 at the constant-absent existence oracle. -/
theorem remove_nonexistent_no_wait_witness :
    remove_version false (fun _ => false) = (.error .notFound, false) ∧
    wait_for_namespace_deletion (fun _ => false) = .alreadyAbsent :=
  remove_nonexistent_no_wait (fun _ => false) (fun _ => rfl)

/-- A recorded `subprocess.run` invocation: the argument vector and what
was pre-supplied on the child's standard input. -/
structure SubprocessCall where
  cmd : List String
  stdinInput : Option String
deriving DecidableEq, Repr

/-- The `restore_snapshot` endpoint of `web-ui/api/snapshots.py`:
`subprocess.run(["/workspace/scripts/restore-snapshot.sh", request.snapshot],
..., input="yes\n")` — the confirmation answer is pre-supplied on stdin
for every request. -/
def restore_snapshot_invocation (snapshot : String) : SubprocessCall :=
  { cmd := ["/workspace/scripts/restore-snapshot.sh", snapshot],
    stdinInput := some "yes\n" }

/-- Modelled from the spec: `restore-snapshot.sh` is not part of the
repository snapshot; per §4.4/§7 the restore is a destructive overwrite
guarded by an interactive confirmation prompt, which reads one line from
standard input and proceeds only on the answer `yes`. -/
def confirmationAccepted (stdinInput : Option String) : Bool :=
  match stdinInput with
  | some s => s.data.takeWhile (fun c => c ≠ '\n') == "yes".data
  | none => false

/-- C10: every call to the restore endpoint invokes the restore script
with the answer `yes` pre-supplied on its standard input, so the script's
interactive confirmation is auto-answered and the destructive overwrite
proceeds with no confirmation step enforced at or below the API boundary. -/
theorem restore_auto_confirms (snapshot : String) :
    (restore_snapshot_invocation snapshot).cmd =
      ["/workspace/scripts/restore-snapshot.sh", snapshot] ∧
    (restore_snapshot_invocation snapshot).stdinInput = some "yes\n" ∧
    confirmationAccepted (restore_snapshot_invocation snapshot).stdinInput = true :=
  ⟨rfl, rfl, by rfl⟩
